import Mathlib

/-!
A shallow embedding of the Befunge interpreter's execution engine
(`src/state.rs`, `src/util.rs`) and proofs about its behaviour.

Modelling conventions:
* Rust `usize` values are `Nat`; arithmetic that the source performs with
  `wrapping_add` / `wrapping_sub` is taken modulo `USIZE = 2 ^ 64`.
  Theorems that quantify over `usize` values carry `< USIZE` bounds,
  the type invariant of `usize`.
* Rust `i64` stack values are carried as `Int`; every arithmetic operator
  of the source checks the i64 range of its exact result (`i64_in_range`),
  and an out-of-range result — an i64 overflow, which panics in the
  overflow-checked build — is the error outcome `none`, as are the
  division/remainder panics at a zero divisor and at `i64::MIN` op `-1`.
  The `as u8` and `as usize` casts are modelled on the two's-complement
  bit pattern (reduction modulo `2 ^ 64`, then truncation).
* Rust `char` is Lean `Char`.
* `HashMap<Location, char>` is an association list where `insert` prepends
  and lookup returns the first (most recent) binding.
* Fallible computations return `Option`: `none` models a Rust panic (or, for
  the fuelled cursor functions, failure to produce a result within the given
  fuel), `some` a normal return.
* The side-effecting instructions `?`, `&`, `~` draw their environment
  interaction (random direction, line read from stdin, parsed integer) from
  explicit oracle parameters, per the spec's I/O capability boundary.
-/

namespace Befunge

/-- The modulus of Rust's 64-bit `usize` arithmetic. -/
def USIZE : Nat := 2 ^ 64

/-- `Location` (src/state.rs): a specific place in the execution space. -/
structure Location where
  x : Nat
  y : Nat
deriving DecidableEq

/-- `Direction` (src/state.rs): the direction in which the cursor moves. -/
inductive Direction where
  | Up
  | Down
  | Left
  | Right
deriving DecidableEq

/-- `Location::step` (src/state.rs): move one cell in `direction`, using
`wrapping_sub` / `wrapping_add` on `usize` coordinates (modulo `2 ^ 64`;
there is no grid-dimension-aware modulo in the source). -/
def Location.step (l : Location) (direction : Direction) : Location :=
  let y := match direction with
    | Direction.Up => (l.y + (USIZE - 1)) % USIZE
    | Direction.Down => (l.y + 1) % USIZE
    | _ => l.y
  let x := match direction with
    | Direction.Right => (l.x + 1) % USIZE
    | Direction.Left => (l.x + (USIZE - 1)) % USIZE
    | _ => l.x
  { x := x, y := y }

/-- `Direction::opposite` (src/state.rs). -/
def Direction.opposite : Direction → Direction
  | Direction.Up => Direction.Down
  | Direction.Left => Direction.Right
  | Direction.Right => Direction.Left
  | Direction.Down => Direction.Up

/-- `Mode` (src/state.rs): the current execution mode of the interpreter. -/
inductive Mode where
  | Normal
  | Exited
  | Quoted
deriving DecidableEq

/-- `Stack` (src/state.rs): a wrapper around a `Vec<i64>`.  The head of the
list is the top of the stack (the end of the Rust `Vec`). -/
structure Stack where
  stack : List Int
deriving DecidableEq

/-- `Stack::pop`: the top-most value, or `0` on an empty stack
(`unwrap_or(0)`), together with the remaining stack. -/
def Stack.pop (s : Stack) : Int × Stack :=
  match s.stack with
  | [] => (0, { stack := [] })
  | v :: rest => (v, { stack := rest })

/-- `Stack::push`. -/
def Stack.push (s : Stack) (item : Int) : Stack :=
  { stack := item :: s.stack }

/-- `Stack::duplicate_top`: pop (default 0), push twice. -/
def Stack.duplicate_top (s : Stack) : Stack :=
  let (value, s1) := s.pop
  (s1.push value).push value

/-- `Stack::swap_top`: pop `a`, pop `b`, push `a`, push `b`. -/
def Stack.swap_top (s : Stack) : Stack :=
  let (a, s1) := s.pop
  let (b, s2) := s1.pop
  (s2.push a).push b

/-- `util::i64_to_char` (src/util.rs): `(num as u8) as char`.  The `as u8`
cast keeps the low 8 bits of the i64's two's-complement bit pattern
(`emod 2 ^ 64`, then `% 256`); `as char` reads them back as a code point. -/
def i64_to_char (num : Int) : Char :=
  Char.ofNat ((num % ((2 : Int) ^ 64)).toNat % 256)

/-- `util::char_to_i64` (src/util.rs): `(ch as u8) as i64`.  `as u8` keeps
the low 8 bits of the scalar value; `as i64` zero-extends. -/
def char_to_i64 (ch : Char) : Int :=
  ((ch.toNat % 256 : Nat) : Int)

/-- Rust `v as usize` on an `i64`: reinterpret the two's-complement bit
pattern as an unsigned 64-bit value. -/
def i64_as_usize (v : Int) : Nat :=
  (v % ((2 : Int) ^ 64)).toNat

/-- First-match lookup in the association list modelling
`HashMap<Location, char>` (most recent insertion first). -/
def lookup_update : List (Location × Char) → Location → Option Char
  | [], _ => none
  | (l, c) :: rest, loc => if l = loc then some c else lookup_update rest loc

/-- `State` (src/state.rs): the current state of the map. -/
structure State where
  initial_grid : List (List Char)
  grid_updates : List (Location × Char)
  stack : Stack
  cursor : Location
  direction : Direction
  execution_mode : Mode
deriving DecidableEq

/-- `State::empty_state`. -/
def State.empty_state : State :=
  { initial_grid := []
    grid_updates := []
    stack := { stack := [] }
    cursor := { x := 0, y := 0 }
    direction := Direction.Right
    execution_mode := Mode.Normal }

/-- `State::value_at` (src/state.rs), ported with the source's comparisons
verbatim: after the overlay check it tests `initial_grid.len() >= loc.y`
(not `loc.y >= len`) and `initial_grid[loc.y].len() >= loc.x`, then indexes.
The outer `none` models a Rust panic (out-of-bounds `Vec` index);
`some r` models a normal return of the `Option<char>` `r`. -/
def State.value_at (s : State) (loc : Location) : Option (Option Char) :=
  match lookup_update s.grid_updates loc with
  | some c => some (some c)
  | none =>
    if s.initial_grid.length ≥ loc.y then
      some none
    else
      match s.initial_grid.get? loc.y with
      | none => none
      | some row =>
        if row.length ≥ loc.x then
          some none
        else
          match row.get? loc.x with
          | none => none
          | some c => some (some c)

/-- `State::current_value`. -/
def State.current_value (s : State) : Option (Option Char) :=
  s.value_at s.cursor

/-- `State::set_value`: insert/overwrite the overlay entry for `loc`. -/
def State.set_value (s : State) (loc : Location) (ch : Char) : State :=
  { s with grid_updates := (loc, ch) :: s.grid_updates }

/-- `State::increment_cursor`: step the cursor once in the current
direction.  (Defined in the source but never called.) -/
def State.increment_cursor (s : State) : State :=
  { s with cursor := s.cursor.step s.direction }

mutual

/-- `State::step_cursor` (src/state.rs), fuelled: `none` means no result was
produced within `fuel` steps (the call diverges / overflows the call stack).
If the mode is `Exited` it returns `false` at once; otherwise it remembers
the starting cursor and enters its `while` loop. -/
def step_cursor_fuel : Nat → State → Option (Bool × State)
  | 0, _ => none
  | fuel + 1, s =>
    if s.execution_mode = Mode.Exited then
      some (false, s)
    else
      step_cursor_while fuel s.cursor s

/-- One round of `step_cursor`'s `while self.next_value().is_none()` loop:
call `next_value`; a defined character means success; otherwise return
`false` if the cursor is back at `start`, else loop. -/
def step_cursor_while : Nat → Location → State → Option (Bool × State)
  | 0, _, _ => none
  | fuel + 1, start, s =>
    match next_value_fuel fuel s with
    | none => none
    | some (some _, s1) => some (true, s1)
    | some (none, s1) =>
      if start = s1.cursor then
        some (false, s1)
      else
        step_cursor_while fuel start s1

/-- `State::next_value` (src/state.rs), fuelled: it calls `step_cursor`
(not `increment_cursor`) and then reads `current_value`; the `bool` result
of `step_cursor` is discarded.  `none` again models no result within the
fuel (or a panic inside `current_value`). -/
def next_value_fuel : Nat → State → Option (Option Char × State)
  | fuel, s =>
    match step_cursor_fuel fuel s with
    | none => none
    | some (_, s1) =>
      match s1.current_value with
      | none => none
      | some v => some (v, s1)

end

/-- `State::process_quoted` (src/state.rs): `"` returns to Normal mode,
every other character is pushed as its numeric code. -/
def State.process_quoted (s : State) (ch : Char) : State :=
  if ch = '"' then
    { s with execution_mode := Mode.Normal }
  else
    { s with stack := s.stack.push (char_to_i64 ch) }

/-- `read_char` (src/state.rs), at the I/O boundary: `line` is the oracle
result of `io::stdin().read_line` (`none` = read error).  `ch` starts as
`0 as char` and becomes the first character of the line if one exists. -/
def read_char (line : Option (List Char)) (s : State) : State :=
  let ch : Char := match line with
    | some (c :: _) => c
    | _ => Char.ofNat 0
  { s with stack := s.stack.push (char_to_i64 ch) }

/-- `read_integer` (src/state.rs), at the I/O boundary: `parsed` is the
oracle outcome of `read_line` + `trim` + `parse::<i64>`; on success the
value is pushed, otherwise `0` is pushed. -/
def read_integer (parsed : Option Int) (s : State) : State :=
  match parsed with
  | some value => { s with stack := s.stack.push value }
  | none => { s with stack := s.stack.push 0 }

/-- `put` (src/state.rs): pop `y`, `x`, `v`; store `i64_to_char v` at
`(x as usize, y as usize)` in the overlay. -/
def put (s : State) : State :=
  let (y, st1) := s.stack.pop
  let (x, st2) := st1.pop
  let (v, st3) := st2.pop
  State.set_value { s with stack := st3 }
    { x := i64_as_usize x, y := i64_as_usize y } (i64_to_char v)

/-- `get` (src/state.rs), ported verbatim: pop `y`, pop `x`, compute the
value at `(x, y)` into a local `v` — and never push it (the binding is dead
in the source).  `none` models a panic inside `value_at`. -/
def get (s : State) : Option State :=
  let (y, st1) := s.stack.pop
  let (x, st2) := st1.pop
  let s1 := { s with stack := st2 }
  match s1.value_at { x := i64_as_usize x, y := i64_as_usize y } with
  | none => none
  | some _ => some s1

/-- `greater_than` (src/state.rs): pop `a`, pop `b`, push 1 if `b > a`
else 0. -/
def greater_than (s : State) : State :=
  let (a, st1) := s.stack.pop
  let (b, st2) := st1.pop
  { s with stack := st2.push (if b > a then 1 else 0) }

/-- `logical_negation` (src/state.rs): pop `v`, push 1 if `v == 0` else 0. -/
def logical_negation (s : State) : State :=
  let (v, st1) := s.stack.pop
  { s with stack := st1.push (if v = 0 then 1 else 0) }

/-- `print_digit` (src/state.rs): pop and print an integer.  The printed
value is returned as the second component. -/
def print_digit (s : State) : State × Int :=
  let (v, st1) := s.stack.pop
  ({ s with stack := st1 }, v)

/-- `print_char` (src/state.rs): pop and print `i64_to_char` of the value.
The printed character is returned as the second component. -/
def print_char (s : State) : State × Char :=
  let (v, st1) := s.stack.pop
  ({ s with stack := st1 }, i64_to_char v)

/-- Rust `char::to_digit(16)`: `0`-`9`, `a`-`f`, `A`-`F`. -/
def to_digit_16 (ch : Char) : Option Nat :=
  let n := ch.toNat
  if 48 ≤ n ∧ n ≤ 57 then some (n - 48)
  else if 97 ≤ n ∧ n ≤ 102 then some (n - 87)
  else if 65 ≤ n ∧ n ≤ 70 then some (n - 55)
  else none

/-- `push_digit` (src/state.rs): push `ch.to_digit(16)` if defined. -/
def push_digit (s : State) (ch : Char) : State :=
  match to_digit_16 ch with
  | some v => { s with stack := s.stack.push (v : Int) }
  | none => s

/-- The smallest `i64` value, `-2^63`. -/
def I64_MIN : Int := -(2 ^ 63)

/-- The largest `i64` value, `2^63 - 1`. -/
def I64_MAX : Int := 2 ^ 63 - 1

/-- The value range of Rust `i64`. -/
def i64_in_range (v : Int) : Prop :=
  I64_MIN ≤ v ∧ v ≤ I64_MAX

instance (v : Int) : Decidable (i64_in_range v) :=
  inferInstanceAs (Decidable (I64_MIN ≤ v ∧ v ≤ I64_MAX))

/-- `addition` (src/state.rs): `pop() + pop()` (first pop is the top).
The `+` is Rust `i64` addition: when the exact sum leaves the i64 range the
overflow-checked build panics, modelled as `none`. -/
def addition (s : State) : Option State :=
  let (a, st1) := s.stack.pop
  let (b, st2) := st1.pop
  if i64_in_range (a + b) then some { s with stack := st2.push (a + b) }
  else none

/-- `subtraction` (src/state.rs): pop `a`, pop `b`, push `b - a` (Rust
`i64` subtraction: `none` models the overflow panic). -/
def subtraction (s : State) : Option State :=
  let (a, st1) := s.stack.pop
  let (b, st2) := st1.pop
  if i64_in_range (b - a) then some { s with stack := st2.push (b - a) }
  else none

/-- `multiply` (src/state.rs): `pop() * pop()` (Rust `i64` multiplication:
`none` models the overflow panic). -/
def multiply (s : State) : Option State :=
  let (a, st1) := s.stack.pop
  let (b, st2) := st1.pop
  if i64_in_range (a * b) then some { s with stack := st2.push (a * b) }
  else none

/-- `divide` (src/state.rs): pop `a`, pop `b`, push `b / a` (Rust `i64`
division truncates toward zero, `Int.tdiv`).  `none` models the Rust
panics: division by zero, and the overflow of `i64::MIN / -1` (whose exact
quotient `2^63` is not representable). -/
def divide (s : State) : Option State :=
  let (a, st1) := s.stack.pop
  let (b, st2) := st1.pop
  if a = 0 then none
  else if b = I64_MIN ∧ a = -1 then none
  else some { s with stack := st2.push (Int.tdiv b a) }

/-- `modulo` (src/state.rs): pop `a`, pop `b`, push `b % a` (Rust remainder
takes the dividend's sign, `Int.tmod`).  `none` models the Rust panics:
remainder by zero, and the overflow check of `i64::MIN % -1`. -/
def modulo (s : State) : Option State :=
  let (a, st1) := s.stack.pop
  let (b, st2) := st1.pop
  if a = 0 then none
  else if b = I64_MIN ∧ a = -1 then none
  else some { s with stack := st2.push (Int.tmod b a) }

/-- `end_program` (src/state.rs): set the mode to `Exited`. -/
def end_program (s : State) : State :=
  { s with execution_mode := Mode.Exited }

/-- `horizontal_if` (src/state.rs): set direction Left, then pop; if the
value is 0 overwrite the direction with Right. -/
def horizontal_if (s : State) : State :=
  let s1 := { s with direction := Direction.Left }
  let (v, st1) := s1.stack.pop
  let s2 := { s1 with stack := st1 }
  if v = 0 then { s2 with direction := Direction.Right } else s2

/-- `veritical_if` (src/state.rs; the source spells it this way): set
direction Up, then pop; if the value is 0 overwrite with Down. -/
def veritical_if (s : State) : State :=
  let s1 := { s with direction := Direction.Up }
  let (v, st1) := s1.stack.pop
  let s2 := { s1 with stack := st1 }
  if v = 0 then { s2 with direction := Direction.Down } else s2

/-- The guard of `process_normal`'s first match arm,
`'0'...'9' | 'a'...'f'` (inclusive ranges). -/
def is_hex_digit (ch : Char) : Bool :=
  decide (('0' ≤ ch ∧ ch ≤ '9') ∨ ('a' ≤ ch ∧ ch ≤ 'f'))

/-- The backquote character (code 96), the `process_normal` arm for
`greater_than`. -/
def backquote : Char := Char.ofNat 96

/-- `State::process_normal` (src/state.rs), fuelled (the `#` arm calls
`step_cursor`).  `rnd` is the oracle for `rand::random::<Direction>()`,
`line` and `parsed` the stdin oracles for `~` and `&`.  `none` models a
panic or a missing result within the fuel; unrecognised characters are
no-ops.  The backquote arm is tested first among the specific characters;
it is disjoint from every other arm, so the source's arm order is
preserved semantically. -/
def process_normal_fuel (fuel : Nat) (rnd : Direction) (line : Option (List Char))
    (parsed : Option Int) (s : State) (ch : Char) : Option State :=
  if is_hex_digit ch then some (push_digit s ch)
  else if ch = backquote then some (greater_than s)
  else if ch = '"' then some { s with execution_mode := Mode.Quoted }
  else if ch = '#' then
    match step_cursor_fuel fuel s with
    | none => none
    | some (_, s1) => some s1
  else if ch = '+' then addition s
  else if ch = '-' then subtraction s
  else if ch = '*' then multiply s
  else if ch = '/' then divide s
  else if ch = '%' then modulo s
  else if ch = '!' then some (logical_negation s)
  else if ch = '>' then some { s with direction := Direction.Right }
  else if ch = '<' then some { s with direction := Direction.Left }
  else if ch = '^' then some { s with direction := Direction.Up }
  else if ch = 'v' then some { s with direction := Direction.Down }
  else if ch = '?' then some { s with direction := rnd }
  else if ch = '|' then some (veritical_if s)
  else if ch = '_' then some (horizontal_if s)
  else if ch = '$' then some { s with stack := (s.stack.pop).2 }
  else if ch = ':' then some { s with stack := s.stack.duplicate_top }
  else if ch = '\\' then some { s with stack := s.stack.swap_top }
  else if ch = '&' then some (read_integer parsed s)
  else if ch = '~' then some (read_char line s)
  else if ch = '.' then some (print_digit s).1
  else if ch = ',' then some (print_char s).1
  else if ch = 'p' then some (put s)
  else if ch = 'g' then get s
  else if ch = '@' then some (end_program s)
  else some s


/-! ## Helper lemmas -/

theorem step_cursor_and_while_diverge (n : Nat) :
    ∀ s : State, s.execution_mode ≠ Mode.Exited →
      step_cursor_fuel n s = none ∧ ∀ start, step_cursor_while n start s = none := by
  induction n with
  | zero =>
    intro s _
    refine ⟨by rw [step_cursor_fuel], fun start => by rw [step_cursor_while]⟩
  | succ n ih =>
    intro s h
    refine ⟨?_, ?_⟩
    · rw [step_cursor_fuel]
      simp only [if_neg h]
      exact (ih s h).2 s.cursor
    · intro start
      rw [step_cursor_while]
      have hnv : next_value_fuel n s = none := by
        rw [next_value_fuel]
        rw [(ih s h).1]
      rw [hnv]

theorem step_cursor_fuel_some (n : Nat) (s : State) (b : Bool) (s1 : State)
    (h : step_cursor_fuel n s = some (b, s1)) :
    s.execution_mode = Mode.Exited ∧ b = false ∧ s1 = s := by
  by_cases hm : s.execution_mode = Mode.Exited
  · refine ⟨hm, ?_, ?_⟩ <;>
    · cases n with
      | zero => exact absurd h (by rw [step_cursor_fuel]; simp)
      | succ n =>
        rw [step_cursor_fuel] at h
        simp only [if_pos hm] at h
        cases h
        rfl
  · exact absurd h (by rw [(step_cursor_and_while_diverge n s hm).1]; simp)



theorem addition_mode (s s' : State) (h : addition s = some s') :
    s'.execution_mode = s.execution_mode := by
  unfold addition at h
  rcases hp : s.stack.pop with ⟨a, st1⟩
  simp only [hp] at h
  rcases hp2 : st1.pop with ⟨b, st2⟩
  simp only [hp2] at h
  split_ifs at h
  cases h
  rfl

theorem subtraction_mode (s s' : State) (h : subtraction s = some s') :
    s'.execution_mode = s.execution_mode := by
  unfold subtraction at h
  rcases hp : s.stack.pop with ⟨a, st1⟩
  simp only [hp] at h
  rcases hp2 : st1.pop with ⟨b, st2⟩
  simp only [hp2] at h
  split_ifs at h
  cases h
  rfl

theorem multiply_mode (s s' : State) (h : multiply s = some s') :
    s'.execution_mode = s.execution_mode := by
  unfold multiply at h
  rcases hp : s.stack.pop with ⟨a, st1⟩
  simp only [hp] at h
  rcases hp2 : st1.pop with ⟨b, st2⟩
  simp only [hp2] at h
  split_ifs at h
  cases h
  rfl

theorem divide_mode (s s' : State) (h : divide s = some s') :
    s'.execution_mode = s.execution_mode := by
  unfold divide at h
  rcases hp : s.stack.pop with ⟨a, st1⟩
  simp only [hp] at h
  rcases hp2 : st1.pop with ⟨b, st2⟩
  simp only [hp2] at h
  split_ifs at h
  cases h
  rfl

theorem modulo_mode (s s' : State) (h : modulo s = some s') :
    s'.execution_mode = s.execution_mode := by
  unfold modulo at h
  rcases hp : s.stack.pop with ⟨a, st1⟩
  simp only [hp] at h
  rcases hp2 : st1.pop with ⟨b, st2⟩
  simp only [hp2] at h
  split_ifs at h
  cases h
  rfl

theorem get_mode (s s' : State) (h : get s = some s') :
    s'.execution_mode = s.execution_mode := by
  unfold get at h
  rcases hp : s.stack.pop with ⟨y, st1⟩
  simp only [hp] at h
  rcases hp2 : st1.pop with ⟨x, st2⟩
  simp only [hp2] at h
  rcases hv : State.value_at { s with stack := st2 } { x := i64_as_usize x, y := i64_as_usize y } with _ | v
  · simp only [hv] at h; cases h
  · simp only [hv] at h; cases h; rfl





set_option maxHeartbeats 2000000 in
/-- In Normal mode, a completed dispatch leaves the mode unchanged except
that `"` enters Quoted mode and `@` enters Exited mode. -/
theorem process_normal_fuel_mode (fuel : Nat) (rnd : Direction) (line : Option (List Char))
    (parsed : Option Int) (s : State) (ch : Char) (s' : State)
    (h : process_normal_fuel fuel rnd line parsed s ch = some s') :
    s'.execution_mode = s.execution_mode ∨ (ch = '"' ∧ s'.execution_mode = Mode.Quoted) ∨
      (ch = '@' ∧ s'.execution_mode = Mode.Exited) := by
  rw [process_normal_fuel] at h
  by_cases c1 : is_hex_digit ch = true
  · rw [if_pos c1] at h
    injection h with h; subst h
    refine Or.inl ?_
    unfold push_digit
    split <;> rfl
  rw [if_neg c1] at h
  by_cases c2 : ch = backquote
  · rw [if_pos c2] at h
    injection h with h; subst h; exact Or.inl rfl
  rw [if_neg c2] at h
  by_cases c3 : ch = '"'
  · rw [if_pos c3] at h
    injection h with h; subst h
    exact Or.inr (Or.inl ⟨c3, rfl⟩)
  rw [if_neg c3] at h
  by_cases c4 : ch = '#'
  · rw [if_pos c4] at h
    rcases hsc : step_cursor_fuel fuel s with _ | ⟨b, s1⟩
    · simp only [hsc] at h
      cases h
    · simp only [hsc] at h
      injection h with h; subst h
      obtain ⟨_, _, rfl⟩ := step_cursor_fuel_some fuel s b s1 hsc
      exact Or.inl rfl
  rw [if_neg c4] at h
  by_cases c5 : ch = '+'
  · rw [if_pos c5] at h
    exact Or.inl (addition_mode s s' h)
  rw [if_neg c5] at h
  by_cases c6 : ch = '-'
  · rw [if_pos c6] at h
    exact Or.inl (subtraction_mode s s' h)
  rw [if_neg c6] at h
  by_cases c7 : ch = '*'
  · rw [if_pos c7] at h
    exact Or.inl (multiply_mode s s' h)
  rw [if_neg c7] at h
  by_cases c8 : ch = '/'
  · rw [if_pos c8] at h
    exact Or.inl (divide_mode s s' h)
  rw [if_neg c8] at h
  by_cases c9 : ch = '%'
  · rw [if_pos c9] at h
    exact Or.inl (modulo_mode s s' h)
  rw [if_neg c9] at h
  by_cases c10 : ch = '!'
  · rw [if_pos c10] at h
    injection h with h; subst h; exact Or.inl rfl
  rw [if_neg c10] at h
  by_cases c11 : ch = '>'
  · rw [if_pos c11] at h
    injection h with h; subst h; exact Or.inl rfl
  rw [if_neg c11] at h
  by_cases c12 : ch = '<'
  · rw [if_pos c12] at h
    injection h with h; subst h; exact Or.inl rfl
  rw [if_neg c12] at h
  by_cases c13 : ch = '^'
  · rw [if_pos c13] at h
    injection h with h; subst h; exact Or.inl rfl
  rw [if_neg c13] at h
  by_cases c14 : ch = 'v'
  · rw [if_pos c14] at h
    injection h with h; subst h; exact Or.inl rfl
  rw [if_neg c14] at h
  by_cases c15 : ch = '?'
  · rw [if_pos c15] at h
    injection h with h; subst h; exact Or.inl rfl
  rw [if_neg c15] at h
  by_cases c16 : ch = '|'
  · rw [if_pos c16] at h
    injection h with h; subst h
    refine Or.inl ?_
    rcases hp : s.stack.pop with ⟨v, st1⟩
    simp only [veritical_if, hp]
    split <;> rfl
  rw [if_neg c16] at h
  by_cases c17 : ch = '_'
  · rw [if_pos c17] at h
    injection h with h; subst h
    refine Or.inl ?_
    rcases hp : s.stack.pop with ⟨v, st1⟩
    simp only [horizontal_if, hp]
    split <;> rfl
  rw [if_neg c17] at h
  by_cases c18 : ch = '$'
  · rw [if_pos c18] at h
    injection h with h; subst h; exact Or.inl rfl
  rw [if_neg c18] at h
  by_cases c19 : ch = ':'
  · rw [if_pos c19] at h
    injection h with h; subst h; exact Or.inl rfl
  rw [if_neg c19] at h
  by_cases c20 : ch = '\\'
  · rw [if_pos c20] at h
    injection h with h; subst h; exact Or.inl rfl
  rw [if_neg c20] at h
  by_cases c21 : ch = '&'
  · rw [if_pos c21] at h
    injection h with h; subst h
    refine Or.inl ?_
    cases parsed <;> rfl
  rw [if_neg c21] at h
  by_cases c22 : ch = '~'
  · rw [if_pos c22] at h
    injection h with h; subst h
    refine Or.inl ?_
    rcases line with _ | ⟨_ | ⟨c, l⟩⟩ <;> rfl
  rw [if_neg c22] at h
  by_cases c23 : ch = '.'
  · rw [if_pos c23] at h
    injection h with h; subst h; exact Or.inl rfl
  rw [if_neg c23] at h
  by_cases c24 : ch = ','
  · rw [if_pos c24] at h
    injection h with h; subst h; exact Or.inl rfl
  rw [if_neg c24] at h
  by_cases c25 : ch = 'p'
  · rw [if_pos c25] at h
    injection h with h; subst h; exact Or.inl rfl
  rw [if_neg c25] at h
  by_cases c26 : ch = 'g'
  · rw [if_pos c26] at h
    exact Or.inl (get_mode s s' h)
  rw [if_neg c26] at h
  by_cases c27 : ch = '@'
  · rw [if_pos c27] at h
    injection h with h; subst h
    exact Or.inr (Or.inr ⟨c27, rfl⟩)
  rw [if_neg c27] at h
  injection h with h; subst h; exact Or.inl rfl


/-- The two-step `as u8` truncation (low 8 bits of the 64-bit two's-complement
pattern) agrees with reduction modulo 256 directly. -/
theorem i64_to_char_emod (v : Int) :
    i64_to_char v = Char.ofNat ((v % (256 : Int)).toNat) := by
  have h2 : v % (18446744073709551616 : Int) % 256 = v % 256 :=
    Int.emod_emod_of_dvd v ⟨72057594037927936, by norm_num⟩
  have harg : (v % (18446744073709551616 : Int)).toNat % 256
      = (v % (256 : Int)).toNat := by omega
  unfold i64_to_char
  rw [show ((2 : Int) ^ 64) = (18446744073709551616 : Int) from by norm_num, harg]


/-! ## Claim theorems -/

/-- The state loaded from the single-line source file `@`: one row holding
the single character `@`, no overlay entries, default cursor/direction/mode. -/
def demo_state : State :=
  { State.empty_state with initial_grid := [['@']] }

/-- Claim C1, evaluated on the code: with the base layer `[['@']]` and an
empty overlay, `value_at` at the in-extent location (0,0) returns `None`
instead of the base character `@`; at the out-of-extent location (0,2) it
panics (out-of-bounds index) instead of returning the defined absence.
Only the overlay path behaves as claimed (third conjunct). -/
theorem c1_value_at_bounds_inverted :
    demo_state.value_at { x := 0, y := 0 } = some none ∧
    demo_state.value_at { x := 0, y := 2 } = none ∧
    (demo_state.set_value { x := 0, y := 0 } 'X').value_at { x := 0, y := 0 }
      = some (some 'X') :=
  ⟨rfl, rfl, rfl⟩

/-- Claim C2, evaluated on the code: dispatching `p` with stack `[0, 0, 5]`
(top-first: y = 0, x = 0, v = 5) writes character 5 at (0,0), but then
dispatching `g` with stack `[0, 0]` pops its operands and pushes nothing —
the resulting stack is empty, not `[5]`: `get` computes the looked-up value
into a dead local and never pushes it. -/
theorem c2_get_pushes_nothing :
    process_normal_fuel 1 Direction.Up none none
      { demo_state with stack := Stack.mk [0, 0, 5] } 'p'
      = some { demo_state with
               stack := Stack.mk [],
               grid_updates := [({ x := 0, y := 0 }, Char.ofNat 5)] } ∧
    process_normal_fuel 1 Direction.Up none none
      { demo_state with
        stack := Stack.mk [0, 0],
        grid_updates := [({ x := 0, y := 0 }, Char.ofNat 5)] } 'g'
      = some { demo_state with
               stack := Stack.mk [],
               grid_updates := [({ x := 0, y := 0 }, Char.ofNat 5)] } :=
  ⟨rfl, rfl⟩

/-- Claim C3, evaluated on the code: stepping Left from x = 0 (or Up from
y = 0) wraps modulo `2 ^ 64`, landing on the huge coordinate
`2 ^ 64 − 1 = 18446744073709551615` — not on `width − 1` / `height − 1`;
`step` performs no grid-dimension-aware modulo. -/
theorem c3_step_wraps_mod_2_pow_64 :
    (Location.mk 0 0).step Direction.Left = { x := USIZE - 1, y := 0 } ∧
    (Location.mk 0 0).step Direction.Up = { x := 0, y := USIZE - 1 } ∧
    USIZE - 1 = 18446744073709551615 :=
  ⟨rfl, rfl, rfl⟩

/-- Claim C4, evaluated on the code: dispatching `/` or `%` in Normal mode
on an empty stack pops two default zeros and performs an i64 division /
remainder by zero — a Rust panic (`none`); dispatching `g` with stack
`[2, 0]` reaches the out-of-bounds indexing panic inside `value_at`.
The error branches are reachable, contrary to the claim. -/
theorem c4_dispatch_panics :
    process_normal_fuel 1 Direction.Up none none demo_state '/' = none ∧
    process_normal_fuel 1 Direction.Up none none demo_state '%' = none ∧
    process_normal_fuel 1 Direction.Up none none
      { demo_state with stack := Stack.mk [2, 0] } 'g' = none :=
  ⟨rfl, rfl, rfl⟩

/-- Claim C5, evaluated on the code: `step_cursor` on the freshly loaded
(non-Exited) state never produces a result, at any fuel: its loop condition
calls `next_value`, which immediately calls `step_cursor` back on the
unchanged state — unbounded mutual recursion; the cursor never moves. -/
theorem c5_step_cursor_diverges (fuel : Nat) :
    step_cursor_fuel fuel demo_state = none :=
  (step_cursor_and_while_diverge fuel demo_state (by decide)).1

/-- Claim C6: for every Location (with coordinates in `usize` range) and
every Direction, stepping and then stepping back in the opposite direction
returns to the starting Location (round-trip under the `2 ^ 64` wrap). -/
theorem c6_step_opposite_roundtrip (L : Location) (D : Direction)
    (hx : L.x < USIZE) (hy : L.y < USIZE) :
    (L.step D).step D.opposite = L := by
  obtain ⟨x, y⟩ := L
  have hU : USIZE = 18446744073709551616 := by norm_num [USIZE]
  rw [hU] at hx hy
  dsimp only at hx hy
  cases D <;>
    simp only [Location.step, Direction.opposite, hU, Location.mk.injEq, true_and,
      and_true] <;>
    omega

/-- Witness for C6 at the concrete input `(0,0)`, `Left`. -/
theorem c6_step_opposite_roundtrip_witness :
    ((Location.mk 0 0).step Direction.Left).step Direction.Left.opposite
      = Location.mk 0 0 :=
  c6_step_opposite_roundtrip (Location.mk 0 0) Direction.Left
    (by norm_num [USIZE]) (by norm_num [USIZE])

/-- Claim C7: stack underflow is defined behaviour — `pop` on the empty
stack returns 0 and leaves it empty, `duplicate_top` on the empty stack
pushes two zeros, and `swap_top` on `[5]` yields `[0, 5]` (top-first). -/
theorem c7_stack_underflow_defined :
    (Stack.mk ([] : List Int)).pop = (0, Stack.mk []) ∧
    (Stack.mk ([] : List Int)).duplicate_top = Stack.mk [0, 0] ∧
    (Stack.mk [(5 : Int)]).swap_top = Stack.mk [0, 5] :=
  ⟨rfl, rfl, rfl⟩



/-- Claim C8 as stated is false on the code: dispatching `+` with `2^62` on
top of the stack and `2^62` beneath it does not push `b + a = 2^63` — the
exact sum leaves the i64 range, so the checked i64 addition panics instead
of producing a value. -/
theorem c8_overflow_counterexample :
    process_normal_fuel 1 Direction.Up none none
      { State.empty_state with
        stack := Stack.mk [4611686018427387904, 4611686018427387904] } '+'
      = none ∧
    process_normal_fuel 1 Direction.Up none none
      { State.empty_state with
        stack := Stack.mk [4611686018427387904, 4611686018427387904] } '+'
      ≠ some { State.empty_state with stack := Stack.mk [9223372036854775808] } :=
  ⟨rfl, fun hcon => Option.noConfusion hcon⟩

/-- Claim C8 (amended): operand order of the binary operators.  With `a`
popped first (top of stack) and `b` popped second, `+`, `-`, `*` push
`b+a`, `b-a`, `b*a` provided the exact result is representable in i64
(otherwise the checked arithmetic panics); `/` and `%` push the truncating
`b/a` and `b%a` provided `a ≠ 0` and `(b, a) ≠ (i64::MIN, -1)`; the
greater-than backquote pushes 1 iff `b > a`. -/
theorem c8_binary_operand_order (fuel : Nat) (rnd : Direction)
    (line : Option (List Char)) (parsed : Option Int) (s : State)
    (a b : Int) (rest : List Int)
    (hs : s.stack = Stack.mk (a :: b :: rest)) :
    (i64_in_range (b + a) → process_normal_fuel fuel rnd line parsed s '+'
        = some { s with stack := Stack.mk ((b + a) :: rest) }) ∧
    (i64_in_range (b - a) → process_normal_fuel fuel rnd line parsed s '-'
        = some { s with stack := Stack.mk ((b - a) :: rest) }) ∧
    (i64_in_range (b * a) → process_normal_fuel fuel rnd line parsed s '*'
        = some { s with stack := Stack.mk ((b * a) :: rest) }) ∧
    (a ≠ 0 → ¬(b = I64_MIN ∧ a = -1) →
      process_normal_fuel fuel rnd line parsed s '/'
        = some { s with stack := Stack.mk (Int.tdiv b a :: rest) }) ∧
    (a ≠ 0 → ¬(b = I64_MIN ∧ a = -1) →
      process_normal_fuel fuel rnd line parsed s '%'
        = some { s with stack := Stack.mk (Int.tmod b a :: rest) }) ∧
    process_normal_fuel fuel rnd line parsed s backquote
        = some { s with stack := Stack.mk ((if b > a then 1 else 0) :: rest) } := by
  obtain ⟨g, u, st, cur, d, m⟩ := s
  dsimp only at hs
  subst hs
  refine ⟨?_, ?_, ?_, ?_, ?_, rfl⟩
  · intro hr
    rw [Int.add_comm b a] at hr ⊢
    show (if i64_in_range (a + b) then _ else none) = _
    rw [if_pos hr]; rfl
  · intro hr
    show (if i64_in_range (b - a) then _ else none) = _
    rw [if_pos hr]; rfl
  · intro hr
    rw [Int.mul_comm b a] at hr ⊢
    show (if i64_in_range (a * b) then _ else none) = _
    rw [if_pos hr]; rfl
  · intro ha hov
    show (if a = 0 then none else if b = I64_MIN ∧ a = -1 then none else _) = _
    rw [if_neg ha, if_neg hov]; rfl
  · intro ha hov
    show (if a = 0 then none else if b = I64_MIN ∧ a = -1 then none else _) = _
    rw [if_neg ha, if_neg hov]; rfl

/-- Witness for C8 with stack `[2, 7]` (top-first: a = 2, b = 7): every
representability and divisor hypothesis discharged concretely. -/
theorem c8_binary_operand_order_witness :
    process_normal_fuel 0 Direction.Up none none
      { State.empty_state with stack := Stack.mk [2, 7] } '+'
      = some { State.empty_state with stack := Stack.mk [9] } ∧
    process_normal_fuel 0 Direction.Up none none
      { State.empty_state with stack := Stack.mk [2, 7] } '-'
      = some { State.empty_state with stack := Stack.mk [5] } ∧
    process_normal_fuel 0 Direction.Up none none
      { State.empty_state with stack := Stack.mk [2, 7] } '*'
      = some { State.empty_state with stack := Stack.mk [14] } ∧
    process_normal_fuel 0 Direction.Up none none
      { State.empty_state with stack := Stack.mk [2, 7] } '/'
      = some { State.empty_state with stack := Stack.mk [3] } ∧
    process_normal_fuel 0 Direction.Up none none
      { State.empty_state with stack := Stack.mk [2, 7] } '%'
      = some { State.empty_state with stack := Stack.mk [1] } :=
  have h := c8_binary_operand_order 0 Direction.Up none none
    { State.empty_state with stack := Stack.mk [2, 7] } 2 7 [] rfl
  ⟨h.1 (by decide), h.2.1 (by decide), h.2.2.1 (by decide),
   h.2.2.2.1 (by decide) (by decide), h.2.2.2.2.1 (by decide) (by decide)⟩

/-- Claim C9: `Exited` is terminal and reached only via `@` — dispatching
`@` yields `end_program` (mode `Exited`); a completed Normal-mode dispatch
sets `Exited` iff the character is `@`; Quoted-mode dispatch never sets
`Exited`; and once the mode is `Exited`, `step_cursor` immediately returns
`false` with the state (cursor included) unchanged. -/
theorem c9_exited_only_via_at (fuel : Nat) (rnd : Direction)
    (line : Option (List Char)) (parsed : Option Int) (s : State) (ch : Char)
    (s' : State) :
    (process_normal_fuel fuel rnd line parsed s '@' = some (end_program s) ∧
      (end_program s).execution_mode = Mode.Exited) ∧
    (s.execution_mode = Mode.Normal →
      process_normal_fuel fuel rnd line parsed s ch = some s' →
      (s'.execution_mode = Mode.Exited ↔ ch = '@')) ∧
    (s.execution_mode = Mode.Quoted →
      (s.process_quoted ch).execution_mode ≠ Mode.Exited) ∧
    (s.execution_mode = Mode.Exited →
      step_cursor_fuel (fuel + 1) s = some (false, s)) := by
  refine ⟨⟨rfl, rfl⟩, ?_, ?_, ?_⟩
  · intro hm h
    constructor
    · intro hex
      rcases process_normal_fuel_mode fuel rnd line parsed s ch s' h with
        h1 | ⟨_, h2⟩ | ⟨h3, _⟩
      · rw [hex, hm] at h1
        cases h1
      · rw [h2] at hex
        cases hex
      · exact h3
    · intro hch
      subst hch
      have hat : process_normal_fuel fuel rnd line parsed s '@'
          = some (end_program s) := rfl
      rw [hat] at h
      injection h with h
      subst h
      rfl
  · intro hq hcon
    have hc2 : (s.process_quoted ch).execution_mode = Mode.Exited := hcon
    unfold State.process_quoted at hc2
    split at hc2
    · cases hc2
    · have : s.execution_mode = Mode.Exited := hc2
      rw [hq] at this
      cases this
  · intro hx
    rw [step_cursor_fuel]
    rw [if_pos hx]

/-- Witness for C9: the iff at the completed dispatch of `+` on the empty
Normal-mode state, the Quoted-mode part at `x`, and the Exited part, all at
concrete inputs. -/
theorem c9_exited_only_via_at_witness :
    (({ State.empty_state with stack := Stack.mk [0] } : State).execution_mode
        = Mode.Exited ↔ ('+' : Char) = '@') ∧
    ((({ State.empty_state with execution_mode := Mode.Quoted } : State).process_quoted
        'x').execution_mode ≠ Mode.Exited) ∧
    (step_cursor_fuel 1 { State.empty_state with execution_mode := Mode.Exited }
      = some (false, { State.empty_state with execution_mode := Mode.Exited })) :=
  ⟨((c9_exited_only_via_at 0 Direction.Up none none State.empty_state '+'
      { State.empty_state with stack := Stack.mk [0] }).2.1 rfl rfl),
   ((c9_exited_only_via_at 0 Direction.Up none none
      { State.empty_state with execution_mode := Mode.Quoted } 'x'
      State.empty_state).2.2.1 rfl),
   ((c9_exited_only_via_at 0 Direction.Up none none
      { State.empty_state with execution_mode := Mode.Exited } 'x'
      State.empty_state).2.2.2 rfl)⟩



/-- Claim C10: the character/integer conversions truncate to the low 8 bits:
`i64_to_char v` is the character with code `v mod 256`, `char_to_i64 c` is
`(code of c) mod 256`; hence `,` prints the character with code
(popped value mod 256), `p` stores the character with code (popped v mod
256), and quoting a character pushes its code truncated mod 256. -/
theorem c10_char_conversions_truncate (fuel : Nat) (rnd : Direction)
    (line : Option (List Char)) (parsed : Option Int)
    (v : Int) (c : Char) (s : State) (yv xv wv : Int) (rest : List Int) :
    (i64_to_char v = Char.ofNat ((v % (256 : Int)).toNat)) ∧
    (char_to_i64 c = ((c.toNat % 256 : Nat) : Int)) ∧
    (s.stack = Stack.mk (v :: rest) →
      process_normal_fuel fuel rnd line parsed s ',' = some (print_char s).1 ∧
      (print_char s).2 = Char.ofNat ((v % (256 : Int)).toNat) ∧
      (print_char s).1 = { s with stack := Stack.mk rest }) ∧
    (s.stack = Stack.mk (yv :: xv :: wv :: rest) →
      lookup_update (put s).grid_updates
        { x := i64_as_usize xv, y := i64_as_usize yv }
        = some (Char.ofNat ((wv % (256 : Int)).toNat))) ∧
    (c ≠ '"' →
      (s.process_quoted c).stack = s.stack.push (((c.toNat % 256 : Nat) : Int))) := by
  refine ⟨i64_to_char_emod v, rfl, ?_, ?_, ?_⟩
  · intro hs
    obtain ⟨g, u, st, cur, d, m⟩ := s
    dsimp only at hs
    subst hs
    exact ⟨rfl, i64_to_char_emod v, rfl⟩
  · intro hs
    obtain ⟨g, u, st, cur, d, m⟩ := s
    dsimp only at hs
    subst hs
    show (if ({ x := i64_as_usize xv, y := i64_as_usize yv } : Location)
          = { x := i64_as_usize xv, y := i64_as_usize yv }
        then some (i64_to_char wv)
        else lookup_update u { x := i64_as_usize xv, y := i64_as_usize yv }) = _
    rw [if_pos rfl, i64_to_char_emod wv]
  · intro hc
    show (if c = '"'
        then { s with execution_mode := Mode.Normal }
        else { s with stack := s.stack.push (char_to_i64 c) }).stack = _
    rw [if_neg hc]; rfl

/-- Witness for C10 at code 300 (300 mod 256 = 44) and the quote of the
character with code 256 (256 mod 256 = 0). -/
theorem c10_char_conversions_truncate_witness :
    i64_to_char 300 = Char.ofNat 44 ∧
    (print_char { State.empty_state with stack := Stack.mk [300] }).2
      = Char.ofNat 44 ∧
    lookup_update
      (put { State.empty_state with stack := Stack.mk [0, 0, 300] }).grid_updates
      { x := 0, y := 0 } = some (Char.ofNat 44) ∧
    (State.empty_state.process_quoted (Char.ofNat 256)).stack = Stack.mk [0] :=
  have h1 := c10_char_conversions_truncate 0 Direction.Up none none 300
    (Char.ofNat 256) { State.empty_state with stack := Stack.mk [300] } 0 0 300 []
  have h2 := c10_char_conversions_truncate 0 Direction.Up none none 300
    (Char.ofNat 256) { State.empty_state with stack := Stack.mk [0, 0, 300] } 0 0 300 []
  have h3 := c10_char_conversions_truncate 0 Direction.Up none none 300
    (Char.ofNat 256) State.empty_state 0 0 300 []
  ⟨h3.1, (h1.2.2.1 rfl).2.1, h2.2.2.2.1 rfl, h3.2.2.2.2 (by decide)⟩


end Befunge
